import Mathlib

/-!
Verification of the preprocessing and classification pipeline of the
`ata-core` repository against its natural-language specification.

The development shallowly embeds the relevant Python code:

* `DeleteRowsDuplicateKey.transform` (ata_pipeline0/helpers/preprocessors.py):
  `df.sort_values(timestamp)` followed by
  `df.drop_duplicates(subset=[primary_key], keep="first")`.
* the historical `src/helpers/preprocessors.py` version of the same step:
  `df.drop_duplicates(subset=[primary_key], keep=False)`.
* `ConvertFieldTypes.transform` and `ConvertFieldTypes._convert_to_json`
  (modelled with an executable Python-literal parser for `ast.literal_eval`).
* the newsletter signup validators (ata_pipeline0/site/newsletter.py).
* the ordered preprocessor list assembled by `run_pipeline`
  (ata_pipeline0/main.py).

Batches are lists of rows; machine representation details of pandas
(indexes, dtypes) are abstracted to cell values, and timestamps that the
pipeline has already parsed are modelled as integers (any linearly ordered
timestamp representation works the same way).
-/

/-- A row of an events batch as seen by the duplicate-key deletion step:
its `event_id` primary-key field, its `derived_tstamp` timestamp field
(already parsed, hence comparable; modelled as an integer), and the rest of
the row's content (abstracted to a natural number so that two rows sharing
key and timestamp can still be distinguished). -/
structure EventRow where
  event_id : String
  derived_tstamp : Int
  other : Nat
  deriving DecidableEq, Repr

/-- Number of rows of the batch whose `event_id` equals `k`. -/
def countKey (k : String) (df : List EventRow) : Nat :=
  df.countP (fun r => r.event_id == k)

namespace DeleteRowsDuplicateKey

/-- Timestamp comparison used by `df.sort_values(self.field_timestamp)`. -/
def tsLe (a b : EventRow) : Prop := a.derived_tstamp ≤ b.derived_tstamp

instance : DecidableRel tsLe := fun a b => Int.decLe a.derived_tstamp b.derived_tstamp

instance : IsTotal EventRow tsLe := ⟨fun a b => Int.le_total a.derived_tstamp b.derived_tstamp⟩

instance : IsTrans EventRow tsLe := ⟨fun _ _ _ h h' => Int.le_trans h h'⟩

/-- Model of `df.sort_values(self.field_timestamp)`: the batch sorted by timestamp.
(pandas guarantees only a timestamp-sorted permutation of the rows; the
theorems below use nothing beyond sortedness and permutation.) -/
def sort_values (df : List EventRow) : List EventRow :=
  List.insertionSort tsLe df

/-- Model of `df.drop_duplicates(subset=[self.field_primary_key], keep="first")`:
keep the first row of each `event_id`, scanning front to back; `seen`
accumulates the keys already kept. -/
def drop_duplicates_first (seen : List String) : List EventRow → List EventRow
  | [] => []
  | r :: rs =>
    if r.event_id ∈ seen then drop_duplicates_first seen rs
    else r :: drop_duplicates_first (r.event_id :: seen) rs

/-- Model of `DeleteRowsDuplicateKey.transform` with `event_id` as primary key and
`derived_tstamp` as timestamp: sort by timestamp, then keep the first row
per key. -/
def transform (df : List EventRow) : List EventRow :=
  drop_duplicates_first [] (sort_values df)

/-- Each duplicate group's timestamps are pairwise distinct (no two distinct
rows of the batch share both `event_id` and `derived_tstamp`). -/
def distinctTs (df : List EventRow) : Prop :=
  ∀ r ∈ df, ∀ r' ∈ df,
    r.event_id = r'.event_id → r.derived_tstamp = r'.derived_tstamp → r = r'

end DeleteRowsDuplicateKey

namespace Src

/-- Historical `DeleteRowsDuplicateKey.transform` from `src/helpers/preprocessors.py`:
`df.drop_duplicates(subset=[self.field_primary_key], keep=False)` — keep
exactly the rows whose `event_id` occurs once in the whole batch, in input
order. -/
def DeleteRowsDuplicateKey.transform (df : List EventRow) : List EventRow :=
  df.filter (fun r => countKey r.event_id df == 1)

end Src

/-! ### Newsletter signup validators (ata_pipeline0/site/newsletter.py) -/

/-- Model of `FormElement` dataclass: one element of a Snowplow form-submission
payload. `value` and `type` are `Optional[str]`. -/
structure FormElement where
  name : String
  node_name : String
  value : Option String
  type : Option String
  deriving DecidableEq, Repr

/-- Model of `FormSubmitData` dataclass: the decoded form-submission payload. -/
structure FormSubmitData where
  form_id : String
  form_classes : List String
  elements : List FormElement
  deriving DecidableEq, Repr

/-- The raw dict of one entry of `data["elements"]`: each key may be absent.
`e["name"]`/`e["nodeName"]` raise `KeyError` when absent, while
`e.get("value")`/`e.get("type")` return `None`. -/
structure ElementDict where
  name : Option String
  nodeName : Option String
  value : Option String
  type : Option String
  deriving DecidableEq, Repr

/-- The raw dict a form-submission payload decodes to: each of the three
top-level keys may be absent (absence makes `data[...]` raise `KeyError`). -/
structure FormSubmitDict where
  formId : Option String
  formClasses : Option (List String)
  elements : Option (List ElementDict)
  deriving DecidableEq, Repr

/-- The Python exceptions the modelled code can raise. -/
inductive PyErr where
  | keyError (k : String)
  | valueError
  | synError
  | typeError
  deriving DecidableEq, Repr

/-- Model of `data[k]` on a modelled dict field: `KeyError` when the key is absent. -/
def getItem {α : Type} (k : String) : Option α → Except PyErr α
  | some v => .ok v
  | none => .error (.keyError k)

/-- Effectful map over a list in the `Except` monad, as a Python list
comprehension evaluates: elements in order, the first exception aborts. -/
def exceptMapM {α β : Type} (f : α → Except PyErr β) : List α → Except PyErr (List β)
  | [] => .ok []
  | a :: l => do
    let b ← f a
    let bs ← exceptMapM f l
    pure (b :: bs)

/-- Building one `FormElement` inside the list comprehension of
`parse_form_submit_dict`: `FormElement(name=e["name"], node_name=e["nodeName"],
value=e.get("value"), type=e.get("type"))`. -/
def parse_form_element (e : ElementDict) : Except PyErr FormElement := do
  let n ← getItem "name" e.name
  let nn ← getItem "nodeName" e.nodeName
  pure (FormElement.mk n nn e.value e.type)

/-- Model of `parse_form_submit_dict`: builds `FormSubmitData` from the raw dict. -/
def parse_form_submit_dict (data : FormSubmitDict) : Except PyErr FormSubmitData := do
  let fid ← getItem "formId" data.formId
  let fcs ← getItem "formClasses" data.formClasses
  let els ← getItem "elements" data.elements
  let elements ← exceptMapM parse_form_element els
  pure (FormSubmitData.mk fid fcs elements)

/-- The fields of one event row that the newsletter validators read: the
submit-form payload (`None` or an already-decoded dict, as guaranteed after
the `ConvertFieldTypes` and `ReplaceNaNs` preprocessors) and the page URL
path. -/
structure Event where
  semistruct_form_submit : Option FormSubmitDict
  page_urlpath : String
  deriving DecidableEq, Repr

/-- A Python truthy/falsy result: the OpenVallejo validator can return the
Python value `None` (from the unimplemented popup-form check) besides real
booleans. -/
inductive PyVal where
  | bool (b : Bool)
  | none
  deriving DecidableEq, Repr

/-- Python's `needle in haystack` on strings: substring containment. -/
def strContainsSub (haystack needle : String) : Bool :=
  haystack.toList.tails.any (fun t => needle.toList.isPrefixOf t)

namespace SiteNewsletterSignupValidator

/-- Model of `has_data`: the payload field is not `None`. -/
def has_data (event : Event) : Bool :=
  event.semistruct_form_submit.isSome

/-- Model of `has_email_input`: parses the payload and looks for an
`<input type="email">` element (`e.node_name == "INPUT" and e.type == "email"`;
a `None` type never equals `"email"`). Called on a `None` payload,
`parse_form_submit_dict(None)` would raise a `TypeError` (subscripting
`None`). -/
def has_email_input (event : Event) : Except PyErr Bool :=
  match event.semistruct_form_submit with
  | Option.none => .error .typeError
  | some d => (parse_form_submit_dict d).map
      (fun fd => fd.elements.any (fun e =>
        e.node_name == "INPUT" && e.type == some "email"))

/-- Base-class `validate`: `self.has_data(event) and self.has_email_input(event)`;
Python `and` short-circuits, so a `None` payload returns `False` without
parsing. -/
def validate (event : Event) : Except PyErr Bool :=
  if has_data event then has_email_input event else .ok false

/-- Number of `parse_form_submit_dict` calls the base `validate` performs
(instrumentation of the same short-circuit evaluation order). -/
def validate_parse_calls (event : Event) : Nat :=
  if has_data event then 1 else 0

end SiteNewsletterSignupValidator

namespace AfroLaNewsletterSignupValidator

/-- Model of `is_in_newsletter_page`: the URL path is exactly `/subscribe`. -/
def is_in_newsletter_page (event : Event) : Bool :=
  event.page_urlpath == "/subscribe"

/-- AfroLA `validate`: `super().validate(event) and self.is_in_newsletter_page(event)`. -/
def validate (event : Event) : Except PyErr Bool := do
  let b ← SiteNewsletterSignupValidator.validate event
  pure (b && is_in_newsletter_page event)

/-- Model of `parse_form_submit_dict` calls performed by AfroLA `validate`
(`is_in_newsletter_page` does not parse). -/
def validate_parse_calls (event : Event) : Nat :=
  SiteNewsletterSignupValidator.validate_parse_calls event

end AfroLaNewsletterSignupValidator

namespace DallasFreePressNewsletterSignupValidator

/-- Model of `is_newsletter_inline_form`: re-parses the payload and compares
`form_data.form_id == "mc-embedded-subscribe-form"` (exact match). -/
def is_newsletter_inline_form (event : Event) : Except PyErr Bool :=
  match event.semistruct_form_submit with
  | Option.none => .error .typeError
  | some d => (parse_form_submit_dict d).map
      (fun fd => fd.form_id == "mc-embedded-subscribe-form")

/-- DFP `validate`: `super().validate(event) and self.is_newsletter_inline_form(event)`. -/
def validate (event : Event) : Except PyErr Bool := do
  let b ← SiteNewsletterSignupValidator.validate event
  if b then is_newsletter_inline_form event else pure false

/-- Model of `parse_form_submit_dict` calls performed by DFP `validate`: the base
ones, plus one by `is_newsletter_inline_form` when the base result is
truthy. -/
def validate_parse_calls (event : Event) : Nat :=
  SiteNewsletterSignupValidator.validate_parse_calls event +
    (match SiteNewsletterSignupValidator.validate event with
     | .ok true => 1
     | _ => 0)

end DallasFreePressNewsletterSignupValidator

namespace OpenVallejoNewsletterSignupValidator

/-- Model of `is_newsletter_inline_form`: exact match of
`form_data.form_id == "mc-embedded-subscribe-form"`. -/
def is_newsletter_inline_form (event : Event) : Except PyErr Bool :=
  match event.semistruct_form_submit with
  | Option.none => .error .typeError
  | some d => (parse_form_submit_dict d).map
      (fun fd => fd.form_id == "mc-embedded-subscribe-form")

/-- Model of `is_newsletter_popup_form`: the body is `pass` (a TODO in the source),
so the call returns Python `None` for every event. -/
def is_newsletter_popup_form (_event : Event) : PyVal :=
  PyVal.none

/-- OpenVallejo `validate`:
`super().validate(event) and (self.is_newsletter_inline_form(event) or self.is_newsletter_popup_form(event))`.
Python `or` returns its second operand when the first is falsy, so a failed
exact match yields the popup check's `None`. -/
def validate (event : Event) : Except PyErr PyVal := do
  let b ← SiteNewsletterSignupValidator.validate event
  if b then do
    let inline ← is_newsletter_inline_form event
    pure (if inline then PyVal.bool true else is_newsletter_popup_form event)
  else
    pure (PyVal.bool false)

/-- Model of `parse_form_submit_dict` calls performed by OpenVallejo `validate`:
the base ones, plus one by `is_newsletter_inline_form` when the base result
is truthy (`is_newsletter_popup_form` performs none). -/
def validate_parse_calls (event : Event) : Nat :=
  SiteNewsletterSignupValidator.validate_parse_calls event +
    (match SiteNewsletterSignupValidator.validate event with
     | .ok true => 1
     | _ => 0)

end OpenVallejoNewsletterSignupValidator

namespace The19thNewsletterSignupValidator

/-- Model of `is_newsletter_form`: `"newsletter" in form_data.form_id` (substring). -/
def is_newsletter_form (event : Event) : Except PyErr Bool :=
  match event.semistruct_form_submit with
  | Option.none => .error .typeError
  | some d => (parse_form_submit_dict d).map
      (fun fd => strContainsSub fd.form_id "newsletter")

/-- The19th `validate`: `super().validate(event) and self.is_newsletter_form(event)`. -/
def validate (event : Event) : Except PyErr Bool := do
  let b ← SiteNewsletterSignupValidator.validate event
  if b then is_newsletter_form event else pure false

/-- Model of `parse_form_submit_dict` calls performed by The19th `validate`. -/
def validate_parse_calls (event : Event) : Nat :=
  SiteNewsletterSignupValidator.validate_parse_calls event +
    (match SiteNewsletterSignupValidator.validate event with
     | .ok true => 1
     | _ => 0)

end The19thNewsletterSignupValidator

/-! ### The preprocessor order assembled by run_pipeline (ata_pipeline0/main.py) -/

/-- The preprocessing steps named in the `preprocessors=[...]` list of
`run_pipeline`; only their order matters here. -/
inductive PreprocessorStep where
  | selectFieldsRelevant
  | deleteRowsEmpty
  | convertFieldTypes
  | deleteRowsDuplicateKey
  | deleteRowsBot
  | addFieldSiteName
  | replaceNaNs
  | addFieldFormSubmitIsNewsletter
  deriving DecidableEq, Repr

/-- The `preprocessors=[...]` list `run_pipeline` passes to
`preprocess_events`, in source order. The list is a literal in the source,
identical for every invocation: the `site` argument parametrises only step
configuration, never the order. -/
def run_pipeline_preprocessors : List PreprocessorStep :=
  [.selectFieldsRelevant, .deleteRowsEmpty, .convertFieldTypes,
   .deleteRowsDuplicateKey, .deleteRowsBot, .addFieldSiteName,
   .replaceNaNs, .addFieldFormSubmitIsNewsletter]

/-! ### ConvertFieldTypes (ata_pipeline0/helpers/preprocessors.py)

One DataFrame cell is modelled by `Cell`. Floats are represented by
rationals and datetimes by integer epoch offsets; neither theorem below
depends on the binary rounding of a float nor on the epoch unit, only on
values being preserved or not. `ast.literal_eval` is modelled by an
executable recursive-descent parser of Python literals (`None`, booleans,
integers, floats, quoted strings, lists, dicts); a structurally ill-formed
input is a `SyntaxError`, exactly the exception `_convert_to_json` does not
catch. Duplicate dict keys are kept as given (no payload uses them). -/

/-- A Python value held in one cell: raw strings, the scalars produced by
the conversions, `None`, `np.nan`, `NaT`, and decoded literal structures. -/
inductive Cell where
  | noneC
  | nanC
  | natC
  | boolC (b : Bool)
  | intC (n : Int)
  | floatC (q : Rat)
  | strC (s : String)
  | dtC (t : Int)
  | listC (xs : List Cell)
  | dictC (kvs : List (Cell × Cell))

/-- Skip blanks the way Python's tokenizer does between tokens. -/
def skipWs : List Char → List Char
  | [] => []
  | c :: cs => if c = ' ' ∨ c = '\t' ∨ c = '\n' ∨ c = '\r' then skipWs cs else c :: cs

/-- Scan a quoted string body up to the closing quote `q`, handling the
common escapes; returns the content and the rest of the input. -/
def scanStr (q : Char) : List Char → List Char → Option (String × List Char)
  | [], _ => Option.none
  | c :: cs, acc =>
    if c = q then some (String.mk acc.reverse, cs)
    else if c = '\\' then
      match cs with
      | [] => Option.none
      | e :: cs' =>
        let ec := if e = 'n' then '\n' else if e = 't' then '\t' else e
        scanStr q cs' (ec :: acc)
    else scanStr q cs (c :: acc)

/-- Longest leading run of decimal digits. -/
def scanDigits : List Char → List Char × List Char
  | [] => ([], [])
  | c :: cs =>
    if c.isDigit then
      let (ds, r) := scanDigits cs
      (c :: ds, r)
    else ([], c :: cs)

/-- Decimal value of a digit run. -/
def digitsToNat (ds : List Char) : Nat :=
  ds.foldl (fun a c => a * 10 + (c.toNat - 48)) 0

/-- Parse a numeric literal (optional sign, digits, optional fraction). -/
def parseNum (cs : List Char) : Except PyErr (Cell × List Char) :=
  let (neg, cs1) :=
    match cs with
    | '-' :: t => (true, t)
    | _ => (false, cs)
  let (ds, r) := scanDigits cs1
  if ds.isEmpty then .error .synError
  else
    match r with
    | '.' :: r2 =>
      let (fs, r3) := scanDigits r2
      let mant : Rat := (digitsToNat ds : Rat) + (digitsToNat fs : Rat) / ((10 : Rat) ^ fs.length)
      .ok (.floatC (if neg then -mant else mant), r3)
    | _ =>
      let n : Int := digitsToNat ds
      .ok (.intC (if neg then -n else n), r)

/-- Continuation state of the literal parser: a value, the items of a list,
or the items of a dict. -/
inductive PMode where
  | val
  | listItems (acc : List Cell)
  | dictItems (acc : List (Cell × Cell))

/-- Fuel-indexed recursive-descent parser of Python literals; consuming one
unit of fuel per parsing step keeps the recursion structural. -/
def parseRun : Nat → PMode → List Char → Except PyErr (Cell × List Char)
  | 0, _, _ => .error .synError
  | fuel + 1, PMode.val, cs =>
    match skipWs cs with
    | [] => .error .synError
    | c :: rest =>
      if c = '\'' ∨ c = '"' then
        match scanStr c rest [] with
        | some (s, r) => .ok (.strC s, r)
        | Option.none => .error .synError
      else if c = '\x7b' then
        match skipWs rest with
        | '\x7d' :: r => .ok (.dictC [], r)
        | r => parseRun fuel (PMode.dictItems []) r
      else if c = '[' then
        match skipWs rest with
        | ']' :: r => .ok (.listC [], r)
        | r => parseRun fuel (PMode.listItems []) r
      else if c.isDigit ∨ c = '-' then
        parseNum (c :: rest)
      else if (c :: rest).take 4 = ['N', 'o', 'n', 'e'] then
        .ok (.noneC, (c :: rest).drop 4)
      else if (c :: rest).take 4 = ['T', 'r', 'u', 'e'] then
        .ok (.boolC true, (c :: rest).drop 4)
      else if (c :: rest).take 5 = ['F', 'a', 'l', 's', 'e'] then
        .ok (.boolC false, (c :: rest).drop 5)
      else .error .synError
  | fuel + 1, PMode.listItems acc, cs => do
    let (v, r) ← parseRun fuel PMode.val cs
    match skipWs r with
    | ',' :: r' => parseRun fuel (PMode.listItems (v :: acc)) r'
    | ']' :: r' => .ok (.listC (v :: acc).reverse, r')
    | _ => .error .synError
  | fuel + 1, PMode.dictItems acc, cs => do
    let (k, r) ← parseRun fuel PMode.val cs
    match skipWs r with
    | ':' :: r' => do
      let (v, r'') ← parseRun fuel PMode.val r'
      match skipWs r'' with
      | ',' :: r3 => parseRun fuel (PMode.dictItems ((k, v) :: acc)) r3
      | '\x7d' :: r3 => .ok (.dictC ((k, v) :: acc).reverse, r3)
      | _ => .error .synError
    | _ => .error .synError

/-- Model of `ast.literal_eval` applied to a string: parse one literal and require
the whole input to be consumed; anything else is a `SyntaxError`. -/
def literal_eval_string (s : String) : Except PyErr Cell :=
  match parseRun (2 * s.length + 2) PMode.val s.toList with
  | .ok (v, r) => if (skipWs r).isEmpty then .ok v else .error .synError
  | .error e => .error e

/-- Model of `ast.literal_eval(value)` as `_convert_to_json` calls it: a non-string
argument (an already-decoded dict or list, `None`, `np.nan`, a number) is a
malformed node and raises `ValueError`; a string is parsed as a literal. -/
def literal_eval : Cell → Except PyErr Cell
  | .strC s => literal_eval_string s
  | _ => .error .valueError

/-- Truncation toward zero, as Python's `int()`/pandas `astype(int)` do. -/
def ratTruncToInt (q : Rat) : Int :=
  if q < 0 then -(Rat.floor (-q)) else Rat.floor q

/-- A strict integer string (optional sign, digits, nothing else). -/
def parse_int_chars (cs : List Char) : Option Int :=
  let (neg, cs1) :=
    match cs with
    | '-' :: t => (true, t)
    | _ => (false, cs)
  let (ds, r) := scanDigits cs1
  if ds.isEmpty ∨ ¬ r.isEmpty then Option.none
  else some (if neg then -(digitsToNat ds : Int) else (digitsToNat ds : Int))

/-- Fixed-width digit read (for timestamp components). -/
def readDigits : Nat → Nat → List Char → Option (Nat × List Char)
  | 0, acc, cs => some (acc, cs)
  | n + 1, acc, c :: cs =>
    if c.isDigit then readDigits n (acc * 10 + (c.toNat - 48)) cs else Option.none
  | _ + 1, _, [] => Option.none

/-- Require one specific character. -/
def expectChar (c : Char) : List Char → Option (List Char)
  | x :: xs => if x = c then some xs else Option.none
  | [] => Option.none

/-- Days from 1970-01-01 of a civil date (standard civil-calendar
conversion). -/
def daysFromCivil (y : Int) (m d : Nat) : Int :=
  let y' : Int := if m ≤ 2 then y - 1 else y
  let era : Int := Int.ediv y' 400
  let yoe : Int := y' - era * 400
  let doy : Int := Int.ediv (153 * ((m : Int) + (if 2 < m then -3 else 9)) + 2) 5 + (d : Int) - 1
  let doe : Int := yoe * 365 + Int.ediv yoe 4 - Int.ediv yoe 100 + doy
  era * 146097 + doe - 719468

/-- Parse an ISO-8601 UTC instant (`YYYY-MM-DD`, optional `T`/space time
part, optional fraction, optional `Z`) to epoch milliseconds — the timestamp
format of the staged Snowplow data that `pd.to_datetime(..., utc=True)`
receives. -/
def parseDatetimeChars (cs : List Char) : Option Int := do
  let (y, r1) ← readDigits 4 0 cs
  let r2 ← expectChar '-' r1
  let (mo, r3) ← readDigits 2 0 r2
  let r4 ← expectChar '-' r3
  let (d, r5) ← readDigits 2 0 r4
  if mo < 1 ∨ 12 < mo ∨ d < 1 ∨ 31 < d then Option.none else
  let dayMs : Int := daysFromCivil (y : Int) mo d * 86400000
  match r5 with
  | [] => some dayMs
  | c :: r6 =>
    if c = 'T' ∨ c = ' ' then do
      let (h, r7) ← readDigits 2 0 r6
      let r8 ← expectChar ':' r7
      let (mi, r9) ← readDigits 2 0 r8
      let r10 ← expectChar ':' r9
      let (sec, r11) ← readDigits 2 0 r10
      if 23 < h ∨ 59 < mi ∨ 59 < sec then Option.none else
      let base : Int := dayMs + (h : Int) * 3600000 + (mi : Int) * 60000 + (sec : Int) * 1000
      match r11 with
      | [] => some base
      | '.' :: r12 =>
        let (fs, r13) := scanDigits r12
        if fs.isEmpty then Option.none else
        let ms : Int := digitsToNat (fs.take 3 ++ List.replicate (3 - fs.length) '0')
        match r13 with
        | [] => some (base + ms)
        | ['Z'] => some (base + ms)
        | _ => Option.none
      | ['Z'] => some base
      | _ => Option.none
    else Option.none

/-- One row restricted to one representative field of each class handled by
`ConvertFieldTypes.transform` (the step converts each column independently,
cell by cell, so one field per class captures its behavior). -/
structure ConvertRow where
  intF : Cell
  floatF : Cell
  dtF : Cell
  catF : Cell
  jsonF : Cell

namespace ConvertFieldTypes

/-- Model of `astype(int)` on one cell: ints stay, floats truncate toward zero,
strict integer strings parse, booleans widen; `NaN` raises `ValueError`
(non-finite), `None` raises `TypeError`. -/
def astype_int : Cell → Except PyErr Cell
  | .intC n => .ok (.intC n)
  | .floatC q => .ok (.intC (ratTruncToInt q))
  | .boolC b => .ok (.intC (if b then 1 else 0))
  | .strC s =>
    match parse_int_chars s.toList with
    | some n => .ok (.intC n)
    | Option.none => .error .valueError
  | .nanC => .error .valueError
  | _ => .error .typeError

/-- Model of `astype(float)` on one cell: floats stay, ints and booleans widen,
numeric strings parse; `NaN` and `None` become `NaN`. -/
def astype_float : Cell → Except PyErr Cell
  | .floatC q => .ok (.floatC q)
  | .intC n => .ok (.floatC (n : Rat))
  | .boolC b => .ok (.floatC (if b then 1 else 0))
  | .nanC => .ok .nanC
  | .noneC => .ok .nanC
  | .strC s =>
    match parseNum s.toList with
    | .ok (.intC n, []) => .ok (.floatC (n : Rat))
    | .ok (.floatC q, []) => .ok (.floatC q)
    | _ => .error .valueError
  | _ => .error .typeError

/-- Model of `pd.to_datetime(series, utc=True)` on one cell: parsed datetimes stay,
missing values (`NaN`, `None`, `NaT`) become `NaT`, ISO strings parse,
integers are epoch offsets. -/
def to_datetime : Cell → Except PyErr Cell
  | .dtC t => .ok (.dtC t)
  | .natC => .ok .natC
  | .nanC => .ok .natC
  | .noneC => .ok .natC
  | .intC n => .ok (.dtC n)
  | .strC s =>
    match parseDatetimeChars s.toList with
    | some t => .ok (.dtC t)
    | Option.none => .error .valueError
  | _ => .error .typeError

/-- Model of `astype("category")` changes only the column dtype; every cell value is
unchanged. -/
def astype_category (c : Cell) : Cell := c

/-- Model of `_convert_to_json` (source name `_convert_to_json`): `ast.literal_eval`
wrapped in `try/except ValueError` — a `ValueError` yields `None`, every
other exception (notably `SyntaxError` from a malformed literal string)
propagates. -/
def convert_to_json (value : Cell) : Except PyErr Cell :=
  match literal_eval value with
  | .ok v => .ok v
  | .error .valueError => .ok .noneC
  | .error e => .error e

/-- Model of `ConvertFieldTypes.transform` on one row: each field class converted by
its column conversion; any exception aborts the whole batch. -/
def transform_row (r : ConvertRow) : Except PyErr ConvertRow := do
  let i ← astype_int r.intF
  let f ← astype_float r.floatF
  let d ← to_datetime r.dtF
  let c := astype_category r.catF
  let j ← convert_to_json r.jsonF
  pure (ConvertRow.mk i f d c j)

/-- Model of `ConvertFieldTypes.transform` on a batch: every row converted; the
first exception aborts the step (pandas raises out of
`astype`/`to_datetime`/`apply`). -/
def transform (df : List ConvertRow) : Except PyErr (List ConvertRow) :=
  exceptMapM transform_row df

end ConvertFieldTypes

namespace DeleteRowsDuplicateKey

theorem mem_drop_duplicates_first {r : EventRow} :
    ∀ {l : List EventRow} {seen : List String},
      r ∈ drop_duplicates_first seen l → r.event_id ∉ seen ∧ r ∈ l := by
  intro l
  induction l with
  | nil => intro seen h; simp [drop_duplicates_first] at h
  | cons a t ih =>
    intro seen h
    by_cases ha : a.event_id ∈ seen
    · simp only [drop_duplicates_first, if_pos ha] at h
      obtain ⟨h1, h2⟩ := ih h
      exact ⟨h1, List.mem_cons_of_mem _ h2⟩
    · simp only [drop_duplicates_first, if_neg ha, List.mem_cons] at h
      rcases h with h | h
      · subst h; exact ⟨ha, List.mem_cons_self _ _⟩
      · obtain ⟨h1, h2⟩ := ih h
        refine ⟨fun hc => h1 (List.mem_cons_of_mem _ hc), List.mem_cons_of_mem _ h2⟩

theorem countKey_drop_duplicates_first_of_seen {k : String} :
    ∀ {l : List EventRow} {seen : List String},
      k ∈ seen → countKey k (drop_duplicates_first seen l) = 0 := by
  intro l seen hk
  rw [countKey, List.countP_eq_zero]
  intro r hr
  obtain ⟨h1, _⟩ := mem_drop_duplicates_first hr
  simp only [beq_iff_eq]
  intro he
  exact h1 (by rw [he]; exact hk)

theorem countKey_drop_duplicates_first_le_one {k : String} :
    ∀ {l : List EventRow} {seen : List String},
      countKey k (drop_duplicates_first seen l) ≤ 1 := by
  intro l
  induction l with
  | nil => intro seen; simp [drop_duplicates_first, countKey]
  | cons a t ih =>
    intro seen
    by_cases ha : a.event_id ∈ seen
    · simpa only [drop_duplicates_first, if_pos ha] using ih
    · simp only [drop_duplicates_first, if_neg ha]
      by_cases hk : a.event_id = k
      · have h0 : countKey k (drop_duplicates_first (a.event_id :: seen) t) = 0 :=
          countKey_drop_duplicates_first_of_seen (by simp [hk])
        rw [countKey] at h0 ⊢
        rw [List.countP_cons_of_pos _ _ (by simp [hk]), h0]
      · have h1 := @ih (a.event_id :: seen)
        rw [countKey] at h1 ⊢
        rw [List.countP_cons_of_neg _ _ (by simp [hk])]
        exact h1

theorem countKey_drop_duplicates_first_pos {k : String} :
    ∀ {l : List EventRow} {seen : List String},
      k ∉ seen → (∃ r ∈ l, r.event_id = k) →
      0 < countKey k (drop_duplicates_first seen l) := by
  intro l
  induction l with
  | nil => intro seen _ h; simp at h
  | cons a t ih =>
    intro seen hk ⟨r, hr, hrk⟩
    by_cases ha : a.event_id ∈ seen
    · simp only [drop_duplicates_first, if_pos ha]
      rcases List.mem_cons.mp hr with h | h
      · exact absurd (by rw [← hrk, h]; exact ha) hk
      · exact ih hk ⟨r, h, hrk⟩
    · simp only [drop_duplicates_first, if_neg ha]
      by_cases hak : a.event_id = k
      · rw [countKey, List.countP_cons_of_pos _ _ (by simp [hak])]
        omega
      · rcases List.mem_cons.mp hr with h | h
        · exact absurd (h ▸ hrk) hak
        · have hns : k ∉ a.event_id :: seen := by
            simp only [List.mem_cons]
            rintro (hc | hc)
            · exact hak hc.symm
            · exact hk hc
          have hp : 0 < countKey k (drop_duplicates_first (a.event_id :: seen) t) :=
            ih hns ⟨r, h, hrk⟩
          rw [countKey] at hp ⊢
          rw [List.countP_cons_of_neg _ _ (by simp [hak])]
          exact hp

theorem ts_min_of_mem_drop_duplicates_first {r : EventRow} :
    ∀ {l : List EventRow} {seen : List String},
      List.Pairwise tsLe l → r ∈ drop_duplicates_first seen l →
      ∀ r' ∈ l, r'.event_id = r.event_id → r.derived_tstamp ≤ r'.derived_tstamp := by
  intro l
  induction l with
  | nil => intro seen _ h; simp [drop_duplicates_first] at h
  | cons a t ih =>
    intro seen hpw hr r' hr' hr'k
    obtain ⟨hhead, htail⟩ := List.pairwise_cons.mp hpw
    by_cases ha : a.event_id ∈ seen
    · simp only [drop_duplicates_first, if_pos ha] at hr
      rcases List.mem_cons.mp hr' with h | h
      · obtain ⟨h1, _⟩ := mem_drop_duplicates_first hr
        exact absurd (hr'k ▸ h ▸ ha) h1
      · exact ih htail hr r' h hr'k
    · simp only [drop_duplicates_first, if_neg ha, List.mem_cons] at hr
      rcases hr with hr | hr
      · subst hr
        rcases List.mem_cons.mp hr' with h | h
        · exact h ▸ Int.le_refl _
        · exact hhead r' h
      · rcases List.mem_cons.mp hr' with h | h
        · obtain ⟨h1, _⟩ := mem_drop_duplicates_first hr
          exact absurd (by simp [← hr'k, h]) h1
        · exact ih htail hr r' h hr'k

theorem mem_of_mem_transform {r : EventRow} {df : List EventRow}
    (h : r ∈ transform df) : r ∈ df := by
  have := (@mem_drop_duplicates_first r (sort_values df) [] h).2
  simpa [sort_values, List.mem_insertionSort] using this

theorem ts_min_of_mem_transform {r : EventRow} {df : List EventRow}
    (h : r ∈ transform df) :
    ∀ r' ∈ df, r'.event_id = r.event_id → r.derived_tstamp ≤ r'.derived_tstamp := by
  intro r' hr' hk
  have hpw : List.Pairwise tsLe (sort_values df) :=
    List.sorted_insertionSort tsLe df
  exact ts_min_of_mem_drop_duplicates_first hpw h r'
    (by simpa [sort_values, List.mem_insertionSort] using hr') hk

theorem countKey_transform_eq_one {k : String} {df : List EventRow}
    (h : ∃ r ∈ df, r.event_id = k) : countKey k (transform df) = 1 := by
  have hle : countKey k (transform df) ≤ 1 := countKey_drop_duplicates_first_le_one
  have hpos : 0 < countKey k (transform df) := by
    refine countKey_drop_duplicates_first_pos (by simp) ?_
    obtain ⟨r, hr, hrk⟩ := h
    exact ⟨r, by simpa [sort_values, List.mem_insertionSort] using hr, hrk⟩
  omega

theorem mem_transform_iff {r : EventRow} {df : List EventRow} (hd : distinctTs df) :
    r ∈ transform df ↔
      r ∈ df ∧ ∀ r' ∈ df, r'.event_id = r.event_id →
        r = r' ∨ r.derived_tstamp < r'.derived_tstamp := by
  constructor
  · intro h
    refine ⟨mem_of_mem_transform h, fun r' hr' hk => ?_⟩
    by_cases he : r = r'
    · exact Or.inl he
    · have hle := ts_min_of_mem_transform h r' hr' hk
      have hne : r.derived_tstamp ≠ r'.derived_tstamp :=
        fun hts => he (hd r (mem_of_mem_transform h) r' hr' hk.symm hts)
      exact Or.inr (lt_of_le_of_ne hle hne)
  · intro ⟨hr, hmin⟩
    have h1 : countKey r.event_id (transform df) = 1 :=
      countKey_transform_eq_one ⟨r, hr, rfl⟩
    have hpos : 0 < (transform df).countP (fun x => x.event_id == r.event_id) := by
      rw [countKey] at h1
      omega
    obtain ⟨r0, hr0, hr0k⟩ := List.countP_pos_iff.mp hpos
    have hr0k' : r0.event_id = r.event_id := by simpa using hr0k
    have hr0df : r0 ∈ df := mem_of_mem_transform hr0
    have hr0min := ts_min_of_mem_transform hr0 r hr hr0k'.symm
    rcases hmin r0 hr0df hr0k' with he | hlt
    · rw [he]; exact hr0
    · have := hr0min
      omega

end DeleteRowsDuplicateKey

/-! ### Helper lemmas: `exceptMapM` -/

theorem exceptMapM_ok_forall {α β : Type} {f : α → Except PyErr β} :
    ∀ {l : List α} {l' : List β}, exceptMapM f l = .ok l' → ∀ b ∈ l', ∃ a ∈ l, f a = .ok b := by
  intro l
  induction l with
  | nil =>
    intro l' h b hb
    simp only [exceptMapM, Except.ok.injEq] at h
    subst h
    simp at hb
  | cons a t ih =>
    intro l' h b hb
    simp only [exceptMapM] at h
    cases hfa : f a with
    | error e => rw [hfa] at h; simp [Bind.bind, Except.bind] at h
    | ok x =>
      rw [hfa] at h
      cases hmt : exceptMapM f t with
      | error e => rw [hmt] at h; simp [Bind.bind, Except.bind] at h
      | ok xs =>
        rw [hmt] at h
        simp only [Bind.bind, Except.bind, Pure.pure, Except.pure, Except.ok.injEq] at h
        subst h
        rcases List.mem_cons.mp hb with hb | hb
        · exact ⟨a, List.mem_cons_self _ _, hb ▸ hfa⟩
        · obtain ⟨a', ha', hfa'⟩ := ih hmt b hb
          exact ⟨a', List.mem_cons_of_mem _ ha', hfa'⟩

theorem exceptMapM_ok_of_forall {α β : Type} {f : α → Except PyErr β} {g : α → β} :
    ∀ {l : List α}, (∀ a ∈ l, f a = .ok (g a)) → exceptMapM f l = .ok (l.map g) := by
  intro l
  induction l with
  | nil => intro _; simp [exceptMapM]
  | cons a t ih =>
    intro h
    simp only [exceptMapM]
    rw [h a (List.mem_cons_self _ _), ih (fun x hx => h x (List.mem_cons_of_mem _ hx))]
    simp [Bind.bind, Except.bind, Pure.pure, Except.pure]

theorem exceptMapM_error_of_mem {α β : Type} {f : α → Except PyErr β} {a : α} {e : PyErr} :
    ∀ {l : List α}, a ∈ l → f a = .error e → ∃ e', exceptMapM f l = .error e' := by
  intro l
  induction l with
  | nil => intro h; simp at h
  | cons x t ih =>
    intro ha hfa
    simp only [exceptMapM]
    rcases List.mem_cons.mp ha with h | h
    · subst h
      rw [hfa]
      exact ⟨e, by simp [Bind.bind, Except.bind]⟩
    · cases hfx : f x with
      | error e' => exact ⟨e', by simp [Bind.bind, Except.bind]⟩
      | ok y =>
        obtain ⟨e', he'⟩ := ih h hfa
        rw [he']
        exact ⟨e', by simp [Bind.bind, Except.bind]⟩

theorem exceptMapM_ok_of_forall_ex {α β : Type} {f : α → Except PyErr β} :
    ∀ {l : List α}, (∀ a ∈ l, ∃ b, f a = .ok b) → ∃ l', exceptMapM f l = .ok l' := by
  intro l
  induction l with
  | nil => intro _; exact ⟨[], by simp [exceptMapM]⟩
  | cons a t ih =>
    intro h
    obtain ⟨b, hb⟩ := h a (List.mem_cons_self _ _)
    obtain ⟨l', hl'⟩ := ih (fun x hx => h x (List.mem_cons_of_mem _ hx))
    refine ⟨b :: l', ?_⟩
    simp only [exceptMapM]
    rw [hb, hl']
    simp [Bind.bind, Except.bind, Pure.pure, Except.pure]

/-! ### Helper lemmas: ConvertFieldTypes cell conversions -/

namespace ConvertFieldTypes

theorem astype_int_shape {c c' : Cell} (h : astype_int c = Except.ok c') :
    ∃ n, c' = Cell.intC n := by
  cases c <;> simp only [astype_int] at h
  case intC n => exact ⟨n, by injection h with h; exact h.symm⟩
  case floatC q => exact ⟨ratTruncToInt q, by injection h with h; exact h.symm⟩
  case boolC b => exact ⟨if b then 1 else 0, by injection h with h; exact h.symm⟩
  case strC s =>
    cases hp : parse_int_chars s.toList with
    | none => rw [hp] at h; cases h
    | some n => rw [hp] at h; exact ⟨n, by injection h with h; exact h.symm⟩
  all_goals cases h

theorem astype_float_shape {c c' : Cell} (h : astype_float c = Except.ok c') :
    c' = Cell.nanC ∨ ∃ q, c' = Cell.floatC q := by
  cases c <;> simp only [astype_float] at h
  case floatC q => exact Or.inr ⟨q, by injection h with h; exact h.symm⟩
  case intC n => exact Or.inr ⟨(n : Rat), by injection h with h; exact h.symm⟩
  case boolC b => exact Or.inr ⟨if b then 1 else 0, by injection h with h; exact h.symm⟩
  case nanC => exact Or.inl (by injection h with h; exact h.symm)
  case noneC => exact Or.inl (by injection h with h; exact h.symm)
  case strC s =>
    split at h
    · exact Or.inr ⟨_, by injection h with h; exact h.symm⟩
    · exact Or.inr ⟨_, by injection h with h; exact h.symm⟩
    · cases h
  all_goals cases h

theorem to_datetime_shape {c c' : Cell} (h : to_datetime c = Except.ok c') :
    c' = Cell.natC ∨ ∃ t, c' = Cell.dtC t := by
  cases c <;> simp only [to_datetime] at h
  case dtC t => exact Or.inr ⟨t, by injection h with h; exact h.symm⟩
  case natC => exact Or.inl (by injection h with h; exact h.symm)
  case nanC => exact Or.inl (by injection h with h; exact h.symm)
  case noneC => exact Or.inl (by injection h with h; exact h.symm)
  case intC n => exact Or.inr ⟨n, by injection h with h; exact h.symm⟩
  case strC s =>
    cases hp : parseDatetimeChars s.toList with
    | none => rw [hp] at h; cases h
    | some t => rw [hp] at h; exact Or.inr ⟨t, by injection h with h; exact h.symm⟩
  all_goals cases h

theorem convert_to_json_not_str {c : Cell} (h : ∀ s, c ≠ Cell.strC s) :
    convert_to_json c = Except.ok Cell.noneC := by
  cases c with
  | strC s => exact absurd rfl (h s)
  | noneC => rfl
  | nanC => rfl
  | natC => rfl
  | boolC b => rfl
  | intC n => rfl
  | floatC q => rfl
  | dtC t => rfl
  | listC xs => rfl
  | dictC kvs => rfl

theorem transform_row_ok {r r' : ConvertRow} (h : transform_row r = Except.ok r') :
    astype_int r.intF = Except.ok r'.intF ∧ astype_float r.floatF = Except.ok r'.floatF ∧
    to_datetime r.dtF = Except.ok r'.dtF ∧ r'.catF = astype_category r.catF ∧
    convert_to_json r.jsonF = Except.ok r'.jsonF := by
  simp only [transform_row] at h
  cases hi : astype_int r.intF with
  | error e => rw [hi] at h; simp [Bind.bind, Except.bind] at h
  | ok i =>
    rw [hi] at h
    cases hf : astype_float r.floatF with
    | error e => rw [hf] at h; simp [Bind.bind, Except.bind] at h
    | ok f =>
      rw [hf] at h
      cases hd : to_datetime r.dtF with
      | error e => rw [hd] at h; simp [Bind.bind, Except.bind] at h
      | ok d =>
        rw [hd] at h
        cases hj : convert_to_json r.jsonF with
        | error e => rw [hj] at h; simp [Bind.bind, Except.bind] at h
        | ok j =>
          rw [hj] at h
          simp only [Bind.bind, Except.bind, Pure.pure, Except.pure, Except.ok.injEq] at h
          subst h
          exact ⟨rfl, rfl, rfl, rfl, rfl⟩

theorem transform_row_second_pass {r' : ConvertRow}
    (hshape : (∃ n, r'.intF = Cell.intC n) ∧
      (r'.floatF = Cell.nanC ∨ ∃ q, r'.floatF = Cell.floatC q) ∧
      (r'.dtF = Cell.natC ∨ ∃ t, r'.dtF = Cell.dtC t))
    (hjson : ∀ s, r'.jsonF ≠ Cell.strC s) :
    transform_row r' = Except.ok (ConvertRow.mk r'.intF r'.floatF r'.dtF r'.catF Cell.noneC) := by
  obtain ⟨⟨n, hn⟩, hf, hd⟩ := hshape
  have hi : astype_int r'.intF = Except.ok r'.intF := by rw [hn]; rfl
  have hf' : astype_float r'.floatF = Except.ok r'.floatF := by
    rcases hf with hf | ⟨q, hf⟩ <;> (rw [hf]; rfl)
  have hd' : to_datetime r'.dtF = Except.ok r'.dtF := by
    rcases hd with hd | ⟨t, hd⟩ <;> (rw [hd]; rfl)
  have hj : convert_to_json r'.jsonF = Except.ok Cell.noneC := convert_to_json_not_str hjson
  simp only [transform_row, hi, hf', hd', hj, Bind.bind, Except.bind, Pure.pure, Except.pure]
  rfl

end ConvertFieldTypes

/-! ### Helper lemmas: validators and key counting -/

theorem base_validate_eq_true {e : Event} {d : FormSubmitDict} {fd : FormSubmitData}
    (h1 : e.semistruct_form_submit = some d)
    (h2 : parse_form_submit_dict d = Except.ok fd)
    (h3 : fd.elements.any (fun el => el.node_name == "INPUT" && el.type == some "email") = true) :
    SiteNewsletterSignupValidator.validate e = Except.ok true := by
  simp [SiteNewsletterSignupValidator.validate, SiteNewsletterSignupValidator.has_data,
    SiteNewsletterSignupValidator.has_email_input, h1, h2, h3, Except.map]

theorem ov_validate_eq {e : Event} {d : FormSubmitDict} {fd : FormSubmitData}
    (h1 : e.semistruct_form_submit = some d)
    (h2 : parse_form_submit_dict d = Except.ok fd)
    (h3 : fd.elements.any (fun el => el.node_name == "INPUT" && el.type == some "email") = true) :
    OpenVallejoNewsletterSignupValidator.validate e =
      Except.ok (if fd.form_id == "mc-embedded-subscribe-form" then PyVal.bool true
        else PyVal.none) := by
  have hbase := base_validate_eq_true h1 h2 h3
  simp [OpenVallejoNewsletterSignupValidator.validate, hbase,
    OpenVallejoNewsletterSignupValidator.is_newsletter_inline_form,
    OpenVallejoNewsletterSignupValidator.is_newsletter_popup_form, h1, h2,
    Except.map, Bind.bind, Except.bind, Pure.pure, Except.pure]

theorem countKey_eq_one_of_mem_nodup :
    ∀ {df : List EventRow} {r : EventRow},
      (df.map EventRow.event_id).Nodup → r ∈ df → countKey r.event_id df = 1 := by
  intro df
  induction df with
  | nil => intro r _ h; simp at h
  | cons a t ih =>
    intro r hnd hr
    simp only [List.map_cons, List.nodup_cons] at hnd
    obtain ⟨hna, hnt⟩ := hnd
    rcases List.mem_cons.mp hr with h | h
    · subst h
      have h0 : countKey r.event_id t = 0 := by
        rw [countKey, List.countP_eq_zero]
        intro x hx
        simp only [beq_iff_eq]
        intro he
        exact hna (he ▸ List.mem_map_of_mem _ hx)
      rw [countKey, List.countP_cons_of_pos _ _ (by simp)]
      rw [countKey] at h0
      omega
    · have hne : ¬ (a.event_id == r.event_id) = true := by
        simp only [beq_iff_eq]
        intro he
        exact hna (he ▸ List.mem_map_of_mem _ h)
      rw [countKey, List.countP_cons_of_neg (fun x => x.event_id == r.event_id) t hne]
      have := ih hnt h
      rw [countKey] at this
      exact this

/-! ### Claim theorems -/

/-- C1 (amended): after `DeleteRowsDuplicateKey.transform` with `event_id` as
primary key and `derived_tstamp` as timestamp, (1) every `event_id` occurring
in the input batch appears exactly once in the output, (2) every kept row is
an input row whose timestamp is a minimum of its `event_id` group, and
(3) when no two rows of a group share a timestamp, the set of kept rows does
not depend on the input order. (The original claim's unconditional
order-irrelevance fails on tied minimal timestamps — see the
counterexample.) -/
theorem c1_dedup_keeps_unique_min (df : List EventRow) :
    (∀ k, (∃ r ∈ df, r.event_id = k) →
      countKey k (DeleteRowsDuplicateKey.transform df) = 1) ∧
    (∀ r ∈ DeleteRowsDuplicateKey.transform df, r ∈ df ∧
      ∀ r' ∈ df, r'.event_id = r.event_id → r.derived_tstamp ≤ r'.derived_tstamp) ∧
    (∀ df', df'.Perm df → DeleteRowsDuplicateKey.distinctTs df →
      ∀ r, r ∈ DeleteRowsDuplicateKey.transform df' ↔
        r ∈ DeleteRowsDuplicateKey.transform df) := by
  refine ⟨fun k hk => DeleteRowsDuplicateKey.countKey_transform_eq_one hk,
    fun r hr => ⟨DeleteRowsDuplicateKey.mem_of_mem_transform hr,
      DeleteRowsDuplicateKey.ts_min_of_mem_transform hr⟩,
    fun df' hperm hdist r => ?_⟩
  have hdist' : DeleteRowsDuplicateKey.distinctTs df' := fun a ha b hb =>
    hdist a (hperm.mem_iff.mp ha) b (hperm.mem_iff.mp hb)
  rw [DeleteRowsDuplicateKey.mem_transform_iff hdist',
    DeleteRowsDuplicateKey.mem_transform_iff hdist]
  constructor
  · rintro ⟨h1, h2⟩
    exact ⟨hperm.mem_iff.mp h1, fun r' hr' => h2 r' (hperm.mem_iff.mpr hr')⟩
  · rintro ⟨h1, h2⟩
    exact ⟨hperm.mem_iff.mpr h1, fun r' hr' => h2 r' (hperm.mem_iff.mp hr')⟩

/-- C1 witness: on the batch `[("A", t=2), ("A", t=1), ("B", t=3)]` the key
`"A"` is kept exactly once, and on a permuted batch with distinct timestamps
the earliest `"A"` row is kept. -/
theorem c1_dedup_keeps_unique_min_witness :
    countKey "A" (DeleteRowsDuplicateKey.transform
      [⟨"A", 2, 0⟩, ⟨"A", 1, 1⟩, ⟨"B", 3, 2⟩]) = 1 ∧
    (⟨"A", 1, 1⟩ : EventRow) ∈ DeleteRowsDuplicateKey.transform
      [⟨"A", 1, 1⟩, ⟨"A", 2, 0⟩, ⟨"B", 3, 2⟩] :=
  ⟨(c1_dedup_keeps_unique_min [⟨"A", 2, 0⟩, ⟨"A", 1, 1⟩, ⟨"B", 3, 2⟩]).1 "A"
      ⟨⟨"A", 2, 0⟩, by decide, rfl⟩,
   ((c1_dedup_keeps_unique_min [⟨"A", 2, 0⟩, ⟨"A", 1, 1⟩, ⟨"B", 3, 2⟩]).2.2
      [⟨"A", 1, 1⟩, ⟨"A", 2, 0⟩, ⟨"B", 3, 2⟩] (by decide)
      (by simp only [DeleteRowsDuplicateKey.distinctTs]; decide) ⟨"A", 1, 1⟩).mpr
      (by decide)⟩

/-- C1 counterexample: two rows share `event_id = "A"` and the same (hence
minimal) timestamp but differ in content; reversing the input changes which
row `DeleteRowsDuplicateKey.transform` keeps, so the input row order is NOT
irrelevant to which row is kept. -/
theorem c1_counterexample :
    ([⟨"A", 1, 20⟩, ⟨"A", 1, 10⟩] : List EventRow).Perm [⟨"A", 1, 10⟩, ⟨"A", 1, 20⟩] ∧
    DeleteRowsDuplicateKey.transform [⟨"A", 1, 10⟩, ⟨"A", 1, 20⟩] = [⟨"A", 1, 10⟩] ∧
    DeleteRowsDuplicateKey.transform [⟨"A", 1, 20⟩, ⟨"A", 1, 10⟩] = [⟨"A", 1, 20⟩] ∧
    DeleteRowsDuplicateKey.transform [⟨"A", 1, 10⟩, ⟨"A", 1, 20⟩] ≠
      DeleteRowsDuplicateKey.transform [⟨"A", 1, 20⟩, ⟨"A", 1, 10⟩] := by
  decide

/-- C2 counterexample: in the `preprocessors=[...]` list of `run_pipeline`,
`ConvertFieldTypes` sits at index 2 and `DeleteRowsEmpty` at index 1, so the
claimed "type conversion runs before required-field emptiness deletion" is
false for the assembled pipeline. -/
theorem c2_counterexample :
    run_pipeline_preprocessors.indexOf PreprocessorStep.convertFieldTypes = 2 ∧
    run_pipeline_preprocessors.indexOf PreprocessorStep.deleteRowsEmpty = 1 ∧
    ¬ run_pipeline_preprocessors.indexOf PreprocessorStep.convertFieldTypes <
        run_pipeline_preprocessors.indexOf PreprocessorStep.deleteRowsEmpty := by
  decide

/-- C2 (amended): in the pipeline assembled by `run_pipeline`,
`ConvertFieldTypes` runs before `DeleteRowsDuplicateKey` but after
`DeleteRowsEmpty` (every invocation uses this same literal step list). -/
theorem c2_amended_order :
    run_pipeline_preprocessors.indexOf PreprocessorStep.convertFieldTypes <
      run_pipeline_preprocessors.indexOf PreprocessorStep.deleteRowsDuplicateKey ∧
    run_pipeline_preprocessors.indexOf PreprocessorStep.deleteRowsEmpty <
      run_pipeline_preprocessors.indexOf PreprocessorStep.convertFieldTypes := by
  decide

/-- C3 (amended): a second `ConvertFieldTypes.transform` pass over its own
output succeeds and leaves the int, float, datetime and categorical cells
unchanged, but replaces EVERY JSON cell with `None` (as long as no JSON cell
of the first output is a string, which holds for decoded payloads):
`ast.literal_eval` on an already-decoded dict raises `ValueError`, which
`_convert_to_json` converts to `None`. Hence coercion is idempotent exactly
on batches whose converted JSON cells are all `None`, and NOT on any batch
with a successfully decoded payload — see the counterexample. -/
theorem c3_type_coercion_second_pass (df df' : List ConvertRow)
    (h : ConvertFieldTypes.transform df = Except.ok df')
    (hjson : ∀ r ∈ df', ∀ s, r.jsonF ≠ Cell.strC s) :
    ConvertFieldTypes.transform df' = Except.ok (df'.map
      (fun r => ConvertRow.mk r.intF r.floatF r.dtF r.catF Cell.noneC)) := by
  simp only [ConvertFieldTypes.transform] at h ⊢
  refine exceptMapM_ok_of_forall (fun r' hr' => ?_)
  obtain ⟨r0, _, hr0⟩ := exceptMapM_ok_forall h r' hr'
  obtain ⟨hi, hf, hd, _, _⟩ := ConvertFieldTypes.transform_row_ok hr0
  exact ConvertFieldTypes.transform_row_second_pass
    ⟨ConvertFieldTypes.astype_int_shape hi, ConvertFieldTypes.astype_float_shape hf,
     ConvertFieldTypes.to_datetime_shape hd⟩ (hjson r' hr')

/-- C3 witness: a converted row whose JSON cell is `None` is a fixed point of
the second pass. -/
theorem c3_type_coercion_second_pass_witness :
    ConvertFieldTypes.transform
        [ConvertRow.mk (Cell.intC 3) Cell.nanC Cell.natC Cell.noneC Cell.noneC] =
      Except.ok [ConvertRow.mk (Cell.intC 3) Cell.nanC Cell.natC Cell.noneC Cell.noneC] := by
  have h := c3_type_coercion_second_pass
    [ConvertRow.mk (Cell.intC 3) Cell.nanC Cell.natC Cell.noneC Cell.nanC]
    [ConvertRow.mk (Cell.intC 3) Cell.nanC Cell.natC Cell.noneC Cell.noneC]
    rfl
    (by
      intro r hr s
      simp only [List.mem_singleton] at hr
      subst hr
      exact fun hc => Cell.noConfusion hc)
  simpa using h

/-- C3 counterexample: a batch whose JSON cell decodes to a dict is changed
by the second pass — the decoded dict becomes `None`, so type coercion is not
idempotent as claimed. -/
theorem c3_counterexample :
    ConvertFieldTypes.transform
        [ConvertRow.mk (Cell.intC 1) (Cell.floatC 2) (Cell.dtC 0) (Cell.strC "page_ping")
          (Cell.strC "\x7b'formId': 'mc-embedded-subscribe-form'\x7d")] =
      Except.ok [ConvertRow.mk (Cell.intC 1) (Cell.floatC 2) (Cell.dtC 0) (Cell.strC "page_ping")
        (Cell.dictC [(Cell.strC "formId", Cell.strC "mc-embedded-subscribe-form")])] ∧
    ConvertFieldTypes.transform
        [ConvertRow.mk (Cell.intC 1) (Cell.floatC 2) (Cell.dtC 0) (Cell.strC "page_ping")
          (Cell.dictC [(Cell.strC "formId", Cell.strC "mc-embedded-subscribe-form")])] =
      Except.ok [ConvertRow.mk (Cell.intC 1) (Cell.floatC 2) (Cell.dtC 0) (Cell.strC "page_ping")
        Cell.noneC] ∧
    [ConvertRow.mk (Cell.intC 1) (Cell.floatC 2) (Cell.dtC 0) (Cell.strC "page_ping")
        Cell.noneC] ≠
      [ConvertRow.mk (Cell.intC 1) (Cell.floatC 2) (Cell.dtC 0) (Cell.strC "page_ping")
        (Cell.dictC [(Cell.strC "formId", Cell.strC "mc-embedded-subscribe-form")])] := by
  refine ⟨rfl, rfl, ?_⟩
  intro h
  injection h with h1 _
  injection h1 with _ _ _ _ h5
  exact Cell.noConfusion h5

/-- C5 (code bug): on the malformed payload string `"{"`, `ast.literal_eval`
raises `SyntaxError`; `_convert_to_json` catches only `ValueError`, so the
exception escapes (aborting the batch) instead of the claimed `None`. -/
theorem c5_convert_to_json_syntax_error :
    ConvertFieldTypes.convert_to_json (Cell.strC "\x7b") =
      Except.error PyErr.synError := rfl

/-- C8: the historical deduplication (`drop_duplicates(keep=False)`, from
`src/helpers/preprocessors.py`) and the adopted timestamp-sorted
deduplication agree — same row set — on every batch whose event ids are
pairwise distinct, and they differ on a batch with a duplicated id: the
historical version retains no row of the duplicated group while the adopted
version retains exactly one. -/
theorem c8_hist_vs_adopted_dedup :
    (∀ df : List EventRow, (df.map EventRow.event_id).Nodup →
      ∀ r, r ∈ DeleteRowsDuplicateKey.transform df ↔
        r ∈ Src.DeleteRowsDuplicateKey.transform df) ∧
    (countKey "A" (Src.DeleteRowsDuplicateKey.transform
        [⟨"A", 2, 0⟩, ⟨"A", 1, 1⟩, ⟨"B", 3, 2⟩]) = 0 ∧
     countKey "A" (DeleteRowsDuplicateKey.transform
        [⟨"A", 2, 0⟩, ⟨"A", 1, 1⟩, ⟨"B", 3, 2⟩]) = 1) := by
  constructor
  · intro df hnd r
    have hinj : ∀ x ∈ df, ∀ y ∈ df, x.event_id = y.event_id → x = y :=
      fun x hx y hy hxy => List.inj_on_of_nodup_map hnd hx hy hxy
    have hdist : DeleteRowsDuplicateKey.distinctTs df :=
      fun a ha b hb hab _ => hinj a ha b hb hab
    rw [DeleteRowsDuplicateKey.mem_transform_iff hdist]
    simp only [Src.DeleteRowsDuplicateKey.transform, List.mem_filter]
    constructor
    · rintro ⟨h1, _⟩
      refine ⟨h1, ?_⟩
      have := countKey_eq_one_of_mem_nodup hnd h1
      simpa using this
    · rintro ⟨h1, _⟩
      exact ⟨h1, fun r' hr' hk => Or.inl (hinj r h1 r' hr' hk.symm)⟩
  · exact ⟨by decide, by decide⟩

/-- C8 witness: on a batch with distinct event ids the two deduplications
keep the same rows. -/
theorem c8_hist_vs_adopted_dedup_witness :
    (⟨"A", 1, 0⟩ : EventRow) ∈ DeleteRowsDuplicateKey.transform
        [⟨"A", 1, 0⟩, ⟨"B", 2, 1⟩] ↔
      (⟨"A", 1, 0⟩ : EventRow) ∈ Src.DeleteRowsDuplicateKey.transform
        [⟨"A", 1, 0⟩, ⟨"B", 2, 1⟩] :=
  c8_hist_vs_adopted_dedup.1 [⟨"A", 1, 0⟩, ⟨"B", 2, 1⟩] (by decide) ⟨"A", 1, 0⟩

/-- C4 counterexample: a payload whose `form_id` contains
`"mc-embedded-subscribe-form"` as a proper substring (with an email input):
the claim says the event classifies `true`, but
`OpenVallejoNewsletterSignupValidator.validate` compares with `==` (exact
match), the exact match fails, and the unimplemented popup branch makes the
result Python `None` — neither `True` nor `False`. -/
theorem c4_counterexample :
    strContainsSub "xx-mc-embedded-subscribe-form" "mc-embedded-subscribe-form" = true ∧
    OpenVallejoNewsletterSignupValidator.validate
        ⟨some ⟨some "xx-mc-embedded-subscribe-form", some [],
          some [⟨some "email", some "INPUT", Option.none, some "email"⟩]⟩, "/"⟩ =
      Except.ok PyVal.none ∧
    (Except.ok PyVal.none : Except PyErr PyVal) ≠ Except.ok (PyVal.bool true) ∧
    (Except.ok PyVal.none : Except PyErr PyVal) ≠ Except.ok (PyVal.bool false) := by
  refine ⟨by decide, rfl, ?_, ?_⟩ <;> (intro h; injection h with h; exact PyVal.noConfusion h)

/-- C4 (amended): for every OpenVallejo submit_form event with a non-null,
well-formed payload containing an `INPUT`/`email` element, `validate` returns
`True` iff `form_id` is EXACTLY `"mc-embedded-subscribe-form"`; when the
exact match fails the result is Python `None` (from the always-`None`
unimplemented popup branch), not `False`. -/
theorem c4_openvallejo_exact_or_none (e : Event) (d : FormSubmitDict) (fd : FormSubmitData)
    (h1 : e.semistruct_form_submit = some d)
    (h2 : parse_form_submit_dict d = Except.ok fd)
    (h3 : fd.elements.any (fun el => el.node_name == "INPUT" && el.type == some "email") = true) :
    OpenVallejoNewsletterSignupValidator.validate e =
      Except.ok (if fd.form_id == "mc-embedded-subscribe-form" then PyVal.bool true
        else PyVal.none) :=
  ov_validate_eq h1 h2 h3

/-- C4 witness: the exactly matching inline Mailchimp form classifies
`True`. -/
theorem c4_openvallejo_exact_or_none_witness :
    OpenVallejoNewsletterSignupValidator.validate
        ⟨some ⟨some "mc-embedded-subscribe-form", some [],
          some [⟨some "email", some "INPUT", Option.none, some "email"⟩]⟩, "/"⟩ =
      Except.ok (PyVal.bool true) := by
  have h := c4_openvallejo_exact_or_none
    ⟨some ⟨some "mc-embedded-subscribe-form", some [],
      some [⟨some "email", some "INPUT", Option.none, some "email"⟩]⟩, "/"⟩
    ⟨some "mc-embedded-subscribe-form", some [],
      some [⟨some "email", some "INPUT", Option.none, some "email"⟩]⟩
    ⟨"mc-embedded-subscribe-form", [],
      [⟨"email", "INPUT", Option.none, some "email"⟩]⟩
    rfl rfl rfl
  simpa using h

/-- C6: an event with a null submit-form payload classifies to Python `False`
under every validator (base, AfroLA, DallasFreePress, OpenVallejo, The19th),
and the `and` short-circuit guarantees `parse_form_submit_dict` is never
invoked (zero parse calls in the instrumented evaluation). -/
theorem c6_null_payload_short_circuit (e : Event)
    (h : e.semistruct_form_submit = Option.none) :
    SiteNewsletterSignupValidator.validate e = Except.ok false ∧
    AfroLaNewsletterSignupValidator.validate e = Except.ok false ∧
    DallasFreePressNewsletterSignupValidator.validate e = Except.ok false ∧
    OpenVallejoNewsletterSignupValidator.validate e = Except.ok (PyVal.bool false) ∧
    The19thNewsletterSignupValidator.validate e = Except.ok false ∧
    SiteNewsletterSignupValidator.validate_parse_calls e = 0 ∧
    AfroLaNewsletterSignupValidator.validate_parse_calls e = 0 ∧
    DallasFreePressNewsletterSignupValidator.validate_parse_calls e = 0 ∧
    OpenVallejoNewsletterSignupValidator.validate_parse_calls e = 0 ∧
    The19thNewsletterSignupValidator.validate_parse_calls e = 0 := by
  have hd : SiteNewsletterSignupValidator.has_data e = false := by
    simp [SiteNewsletterSignupValidator.has_data, h]
  have hb : SiteNewsletterSignupValidator.validate e = Except.ok false := by
    simp [SiteNewsletterSignupValidator.validate, hd]
  have hc : SiteNewsletterSignupValidator.validate_parse_calls e = 0 := by
    simp [SiteNewsletterSignupValidator.validate_parse_calls, hd]
  refine ⟨hb, ?_, ?_, ?_, ?_, hc, ?_, ?_, ?_, ?_⟩
  · simp [AfroLaNewsletterSignupValidator.validate, hb, Bind.bind, Except.bind,
      Pure.pure, Except.pure]
  · simp [DallasFreePressNewsletterSignupValidator.validate, hb, Bind.bind, Except.bind,
      Pure.pure, Except.pure]
  · simp [OpenVallejoNewsletterSignupValidator.validate, hb, Bind.bind, Except.bind,
      Pure.pure, Except.pure]
  · simp [The19thNewsletterSignupValidator.validate, hb, Bind.bind, Except.bind,
      Pure.pure, Except.pure]
  · simp [AfroLaNewsletterSignupValidator.validate_parse_calls, hc]
  · simp [DallasFreePressNewsletterSignupValidator.validate_parse_calls, hc, hb]
  · simp [OpenVallejoNewsletterSignupValidator.validate_parse_calls, hc, hb]
  · simp [The19thNewsletterSignupValidator.validate_parse_calls, hc, hb]

/-- C6 witness: the null-payload event. -/
theorem c6_null_payload_short_circuit_witness :
    SiteNewsletterSignupValidator.validate ⟨Option.none, "/"⟩ = Except.ok false ∧
    OpenVallejoNewsletterSignupValidator.validate ⟨Option.none, "/"⟩ =
      Except.ok (PyVal.bool false) ∧
    DallasFreePressNewsletterSignupValidator.validate_parse_calls ⟨Option.none, "/"⟩ = 0 :=
  ⟨(c6_null_payload_short_circuit ⟨Option.none, "/"⟩ rfl).1,
   (c6_null_payload_short_circuit ⟨Option.none, "/"⟩ rfl).2.2.2.1,
   (c6_null_payload_short_circuit ⟨Option.none, "/"⟩ rfl).2.2.2.2.2.2.2.1⟩

/-- C7: for every DallasFreePress submit_form event with a non-null,
well-formed payload containing an `INPUT`/`email` element, `validate` returns
exactly the boolean of `form_id == "mc-embedded-subscribe-form"`: `True` on
the exact id, `False` on any other id such as `"dummy-id"`. -/
theorem c7_dfp_exact_match (e : Event) (d : FormSubmitDict) (fd : FormSubmitData)
    (h1 : e.semistruct_form_submit = some d)
    (h2 : parse_form_submit_dict d = Except.ok fd)
    (h3 : fd.elements.any (fun el => el.node_name == "INPUT" && el.type == some "email") = true) :
    DallasFreePressNewsletterSignupValidator.validate e =
      Except.ok (fd.form_id == "mc-embedded-subscribe-form") := by
  have hbase := base_validate_eq_true h1 h2 h3
  simp [DallasFreePressNewsletterSignupValidator.validate, hbase,
    DallasFreePressNewsletterSignupValidator.is_newsletter_inline_form, h1, h2,
    Except.map, Bind.bind, Except.bind]

/-- C7 witness: `form_id = "dummy-id"` with the same email input classifies
`False`. -/
theorem c7_dfp_exact_match_witness :
    DallasFreePressNewsletterSignupValidator.validate
        ⟨some ⟨some "dummy-id", some [],
          some [⟨some "email", some "INPUT", Option.none, some "email"⟩]⟩, "/"⟩ =
      Except.ok false := by
  have h := c7_dfp_exact_match
    ⟨some ⟨some "dummy-id", some [],
      some [⟨some "email", some "INPUT", Option.none, some "email"⟩]⟩, "/"⟩
    ⟨some "dummy-id", some [],
      some [⟨some "email", some "INPUT", Option.none, some "email"⟩]⟩
    ⟨"dummy-id", [], [⟨"email", "INPUT", Option.none, some "email"⟩]⟩
    rfl rfl rfl
  simpa using h

/-- C9: for every OpenVallejo submit_form event with a non-null, well-formed
payload containing an `INPUT`/`email` element and a `form_id` different from
`"mc-embedded-subscribe-form"`, `validate` evaluates to Python `None` — the
missing return value of the unimplemented popup check propagated through the
`or`/`and` chain — rather than the boolean `False` its annotation promises. -/
theorem c9_openvallejo_returns_none (e : Event) (d : FormSubmitDict) (fd : FormSubmitData)
    (h1 : e.semistruct_form_submit = some d)
    (h2 : parse_form_submit_dict d = Except.ok fd)
    (h3 : fd.elements.any (fun el => el.node_name == "INPUT" && el.type == some "email") = true)
    (h4 : fd.form_id ≠ "mc-embedded-subscribe-form") :
    OpenVallejoNewsletterSignupValidator.validate e = Except.ok PyVal.none := by
  rw [ov_validate_eq h1 h2 h3]
  simp [h4]

/-- C9 witness: `form_id = "popup-123"` with an email input yields `None`. -/
theorem c9_openvallejo_returns_none_witness :
    OpenVallejoNewsletterSignupValidator.validate
        ⟨some ⟨some "popup-123", some [],
          some [⟨some "email", some "INPUT", Option.none, some "email"⟩]⟩, "/"⟩ =
      Except.ok PyVal.none :=
  c9_openvallejo_returns_none
    ⟨some ⟨some "popup-123", some [],
      some [⟨some "email", some "INPUT", Option.none, some "email"⟩]⟩, "/"⟩
    ⟨some "popup-123", some [],
      some [⟨some "email", some "INPUT", Option.none, some "email"⟩]⟩
    ⟨"popup-123", [], [⟨"email", "INPUT", Option.none, some "email"⟩]⟩
    rfl rfl rfl (by decide)

/-- C10: (1) a non-null payload dict missing any of the required keys
`formId`, `formClasses`, `elements` (or an element missing `name` or
`nodeName`) makes `parse_form_submit_dict` raise `KeyError`, so
`has_email_input` and every publisher's `validate` abort with an exception
instead of returning a boolean; (2) `value` and `type` are the only optional
keys — a dict with all required keys present parses successfully. -/
theorem c10_parse_missing_keys :
    (∀ (e : Event) (d : FormSubmitDict), e.semistruct_form_submit = some d →
      (d.formId = Option.none ∨ d.formClasses = Option.none ∨ d.elements = Option.none ∨
        (∃ els, d.elements = some els ∧
          ∃ el ∈ els, el.name = Option.none ∨ el.nodeName = Option.none)) →
      (∃ err, parse_form_submit_dict d = Except.error err) ∧
      (∃ err, SiteNewsletterSignupValidator.has_email_input e = Except.error err) ∧
      (∃ err, SiteNewsletterSignupValidator.validate e = Except.error err) ∧
      (∃ err, AfroLaNewsletterSignupValidator.validate e = Except.error err) ∧
      (∃ err, DallasFreePressNewsletterSignupValidator.validate e = Except.error err) ∧
      (∃ err, OpenVallejoNewsletterSignupValidator.validate e = Except.error err) ∧
      (∃ err, The19thNewsletterSignupValidator.validate e = Except.error err)) ∧
    (∀ (d : FormSubmitDict) (fid : String) (fcs : List String) (els : List ElementDict),
      d.formId = some fid → d.formClasses = some fcs → d.elements = some els →
      (∀ el ∈ els, el.name.isSome ∧ el.nodeName.isSome) →
      ∃ fd, parse_form_submit_dict d = Except.ok fd) := by
  constructor
  · intro e d h1 hmiss
    have hparse : ∃ err, parse_form_submit_dict d = Except.error err := by
      rcases hmiss with hfi | hfc | hel | ⟨els, hels, el, hmem, hbad⟩
      · exact ⟨PyErr.keyError "formId", by
          simp [parse_form_submit_dict, hfi, getItem, Bind.bind, Except.bind]⟩
      · cases hfi : d.formId with
        | none =>
          exact ⟨PyErr.keyError "formId", by
            simp [parse_form_submit_dict, hfi, getItem, Bind.bind, Except.bind]⟩
        | some fid =>
          exact ⟨PyErr.keyError "formClasses", by
            simp [parse_form_submit_dict, hfi, hfc, getItem, Bind.bind, Except.bind]⟩
      · cases hfi : d.formId with
        | none =>
          exact ⟨PyErr.keyError "formId", by
            simp [parse_form_submit_dict, hfi, getItem, Bind.bind, Except.bind]⟩
        | some fid =>
          cases hfc : d.formClasses with
          | none =>
            exact ⟨PyErr.keyError "formClasses", by
              simp [parse_form_submit_dict, hfi, hfc, getItem, Bind.bind, Except.bind]⟩
          | some fcs =>
            exact ⟨PyErr.keyError "elements", by
              simp [parse_form_submit_dict, hfi, hfc, hel, getItem, Bind.bind, Except.bind]⟩
      · cases hfi : d.formId with
        | none =>
          exact ⟨PyErr.keyError "formId", by
            simp [parse_form_submit_dict, hfi, getItem, Bind.bind, Except.bind]⟩
        | some fid =>
          cases hfc : d.formClasses with
          | none =>
            exact ⟨PyErr.keyError "formClasses", by
              simp [parse_form_submit_dict, hfi, hfc, getItem, Bind.bind, Except.bind]⟩
          | some fcs =>
            have helerr : ∃ e0, parse_form_element el = Except.error e0 := by
              rcases hbad with hn | hnn
              · exact ⟨PyErr.keyError "name", by
                  simp [parse_form_element, hn, getItem, Bind.bind, Except.bind]⟩
              · cases hn : el.name with
                | none =>
                  exact ⟨PyErr.keyError "name", by
                    simp [parse_form_element, hn, getItem, Bind.bind, Except.bind]⟩
                | some n =>
                  exact ⟨PyErr.keyError "nodeName", by
                    simp [parse_form_element, hn, hnn, getItem, Bind.bind, Except.bind]⟩
            obtain ⟨e0, he0⟩ := helerr
            obtain ⟨e1, he1⟩ := exceptMapM_error_of_mem hmem he0
            exact ⟨e1, by
              simp [parse_form_submit_dict, hfi, hfc, hels, he1, getItem,
                Bind.bind, Except.bind]⟩
    obtain ⟨err, herr⟩ := hparse
    have hemail : SiteNewsletterSignupValidator.has_email_input e = Except.error err := by
      simp [SiteNewsletterSignupValidator.has_email_input, h1, herr, Except.map]
    have hvalid : SiteNewsletterSignupValidator.validate e = Except.error err := by
      simp [SiteNewsletterSignupValidator.validate, SiteNewsletterSignupValidator.has_data,
        h1, hemail]
    refine ⟨⟨err, herr⟩, ⟨err, hemail⟩, ⟨err, hvalid⟩, ⟨err, ?_⟩, ⟨err, ?_⟩, ⟨err, ?_⟩,
      ⟨err, ?_⟩⟩
    · simp [AfroLaNewsletterSignupValidator.validate, hvalid, Bind.bind, Except.bind]
    · simp [DallasFreePressNewsletterSignupValidator.validate, hvalid, Bind.bind, Except.bind]
    · simp [OpenVallejoNewsletterSignupValidator.validate, hvalid, Bind.bind, Except.bind]
    · simp [The19thNewsletterSignupValidator.validate, hvalid, Bind.bind, Except.bind]
  · intro d fid fcs els hfi hfc hel hgood
    have hels : ∀ el ∈ els, ∃ fe, parse_form_element el = Except.ok fe := by
      intro el hmem
      obtain ⟨hn, hnn⟩ := hgood el hmem
      obtain ⟨n, hn'⟩ := Option.isSome_iff_exists.mp hn
      obtain ⟨nn, hnn'⟩ := Option.isSome_iff_exists.mp hnn
      exact ⟨FormElement.mk n nn el.value el.type, by
        simp [parse_form_element, hn', hnn', getItem, Bind.bind, Except.bind,
          Pure.pure, Except.pure]⟩
    obtain ⟨l, hl⟩ := exceptMapM_ok_of_forall_ex hels
    exact ⟨FormSubmitData.mk fid fcs l, by
      simp [parse_form_submit_dict, hfi, hfc, hel, hl, getItem, Bind.bind, Except.bind,
        Pure.pure, Except.pure]⟩

/-- C10 witness: a dict missing `formId` makes parsing and validation error;
a dict with all required keys but no `value`/`type` parses fine. -/
theorem c10_parse_missing_keys_witness :
    (∃ err, parse_form_submit_dict ⟨Option.none, some [], some []⟩ = Except.error err) ∧
    (∃ err, The19thNewsletterSignupValidator.validate
      ⟨some ⟨Option.none, some [], some []⟩, "/"⟩ = Except.error err) ∧
    (∃ fd, parse_form_submit_dict
      ⟨some "f", some [], some [⟨some "n", some "INPUT", Option.none, Option.none⟩]⟩ =
        Except.ok fd) :=
  ⟨(c10_parse_missing_keys.1 ⟨some ⟨Option.none, some [], some []⟩, "/"⟩
      ⟨Option.none, some [], some []⟩ rfl (Or.inl rfl)).1,
   (c10_parse_missing_keys.1 ⟨some ⟨Option.none, some [], some []⟩, "/"⟩
      ⟨Option.none, some [], some []⟩ rfl (Or.inl rfl)).2.2.2.2.2.2,
   c10_parse_missing_keys.2
      ⟨some "f", some [], some [⟨some "n", some "INPUT", Option.none, Option.none⟩]⟩
      "f" [] [⟨some "n", some "INPUT", Option.none, Option.none⟩] rfl rfl rfl
      (by decide)⟩
